/-
Verification of the pynecore data-acquisition layer.

Shallow embedding of the repository's core source files:
  * data_provider/src/pynecore_data_provider/providers/ccxt.py
  * data_provider/src/pynecore_data_provider/providers/capitalcom.py
  * data_provider/src/pynecore_data_provider/providers/provider.py
  * data_provider/src/pynecore_data_provider/cli/commands/data.py
  * src/pynecore/cli/plugin_manager.py

Conventions used throughout:
  * Python `str` values are embedded as `List Char` (a Python string is a
    sequence of code points); ASCII-only data is involved.
  * Python `datetime` instants are embedded as integer epoch seconds (`ℤ`);
    the raw CCXT row timestamps are milliseconds (`ℕ`), as in the API.
  * Python floats are embedded as `ℚ` (the numeric values manipulated here
    are decimal fractions; no float-rounding behaviour is claim-relevant).
  * Loops whose termination depends on external data are embedded with an
    explicit fuel parameter; exhausted fuel models a truncated trace.
  * Network calls are embedded as function parameters (`fetch` oracles)
    returning `Except` values; a `.error` result models a raised exception.
-/
import Mathlib

/-! ### Python digit-string helpers

`value.isdigit()` and `int(value)` on ASCII digit strings, and `str(n)`
(decimal rendering) as used by the CCXT timeframe codec (f-strings). -/

/-- Python `int(value)` for a string of ASCII digits, as a fold. -/
def digitsToNat (l : List Char) : ℕ :=
  l.foldl (fun a c => 10 * a + (c.toNat - 48)) 0

/-- Python `value.isdigit()` (restricted to ASCII): nonempty and all digits. -/
def pyIsDigit (l : List Char) : Bool :=
  !l.isEmpty && l.all Char.isDigit

/-- Decimal rendering worker, structural in a fuel bound (kernel-reducible). -/
def natToCharsAux : ℕ → ℕ → List Char
  | 0, _ => []
  | fuel + 1, n =>
    if n < 10 then [Char.ofNat (48 + n)]
    else natToCharsAux fuel (n / 10) ++ [Char.ofNat (48 + n % 10)]

/-- Python `str(n)` for a natural number: decimal rendering, no leading zeros. -/
def natToChars (n : ℕ) : List Char := natToCharsAux (n + 1) n

/-! ### CCXT timeframe codec

Embedding of `CCXTProvider.to_tradingview_timeframe` and
`CCXTProvider.to_exchange_timeframe` (ccxt.py lines 72-146).
`none` models a raised `ValueError`. -/

/-- `CCXTProvider.to_tradingview_timeframe` (ccxt.py lines 72-106). -/
def ccxtToTV (t : List Char) : Option (List Char) :=
  if t.length < 2 then none
  else
    match t.getLast? with
    | none => none
    | some unit =>
      let value := t.dropLast
      if ¬ (pyIsDigit value = true) then none
      else if digitsToNat value = 0 then none
      else if unit = 'm' then some value
      else if unit = 'h' then some (natToChars (digitsToNat value * 60))
      else if unit = 'd' then some (value ++ ['D'])
      else if unit = 'w' then some (value ++ ['W'])
      else if unit = 'M' then some (value ++ ['M'])
      else none

/-- `CCXTProvider.to_exchange_timeframe` (ccxt.py lines 108-146). -/
def ccxtToXchg (t : List Char) : Option (List Char) :=
  if pyIsDigit t = true then
    let mins := digitsToNat t
    if mins = 0 then none
    else if 60 ≤ mins ∧ mins % 60 = 0 then some (natToChars (mins / 60) ++ ['h'])
    else some (natToChars mins ++ ['m'])
  else if t.length < 2 then none
  else
    match t.getLast? with
    | none => none
    | some u =>
      let unit := u.toUpper
      let value := t.dropLast
      if ¬ (pyIsDigit value = true) then none
      else if digitsToNat value = 0 then none
      else if unit = 'D' then some (value ++ ['d'])
      else if unit = 'W' then some (value ++ ['w'])
      else if unit = 'M' then some (value ++ ['M'])
      else none

/-- A CCXT native timeframe string `{N}{unit}` with canonical decimal `N`. -/
def ccxtNative (n : ℕ) (u : Char) : List Char := natToChars n ++ [u]

/-! ### Capital.com timeframe codec

Embedding of `CapitalComProvider.to_tradingview_timeframe` and
`to_exchange_timeframe` together with the `TIMEFRAMES` table
(capitalcom.py lines 22-40 and 69-103). -/

/-- `TIMEFRAMES` (capitalcom.py lines 22-37). -/
def capitalTimeframes : List (List Char × List Char) :=
  [("1".data, "MINUTE".data), ("5".data, "MINUTE_5".data), ("10".data, "MINUTE_10".data),
   ("15".data, "MINUTE_15".data), ("30".data, "MINUTE_30".data),
   ("60".data, "HOUR".data), ("120".data, "HOUR_2".data), ("240".data, "HOUR_4".data),
   ("1D".data, "DAY".data), ("1W".data, "WEEK".data), ("1M".data, "MONTH".data)]

/-- `TIMEFRAMES_INV` (capitalcom.py line 40). -/
def capitalTimeframesInv : List (List Char × List Char) :=
  capitalTimeframes.map (fun p => (p.2, p.1))

/-- Python `s.upper()` (ASCII). -/
def pyUpper (l : List Char) : List Char := l.map Char.toUpper

/-- `CapitalComProvider.to_tradingview_timeframe` (capitalcom.py lines 69-85). -/
def capToTV (t : List Char) : Option (List Char) :=
  capitalTimeframesInv.lookup (pyUpper t)

/-- `CapitalComProvider.to_exchange_timeframe` (capitalcom.py lines 87-103). -/
def capToXchg (t : List Char) : Option (List Char) :=
  capitalTimeframes.lookup t

/-! ### Price-scale derivation loop

Embedding of the `minmove`/`pricescale` loop in `update_symbol_info`:
`while minmove < 1.0: pricescale *= 10; minmove *= 10`
(ccxt.py lines 250-256, capitalcom.py lines 327-333), with explicit fuel;
the Python floats are embedded as rationals. -/

/-- The price-scale loop body, structural in fuel. -/
def priceScaleLoop : ℕ → ℚ → ℕ → ℚ × ℕ
  | 0, minmove, pricescale => (minmove, pricescale)
  | fuel + 1, minmove, pricescale =>
    if minmove < 1 then priceScaleLoop fuel (minmove * 10) (pricescale * 10)
    else (minmove, pricescale)

/-! ### Provider configuration resolution

Embedding of the `providers.toml` handling: the parsed file is an association
list from section names to sections (key-value mappings). -/

/-- One parsed `providers.toml` section: a key-value mapping. -/
abbrev ConfigSect : Type := List (String × String)

/-- `CCXTProvider.__init__` config resolution (ccxt.py lines 182-205): take
the section keyed `"ccxt.<exchange>"` if present, else the `"ccxt"` section
if present, else the empty mapping. -/
def ccxtResolveConfig (data : List (String × ConfigSect)) (exchangeName : String) : ConfigSect :=
  match data.lookup ("ccxt." ++ exchangeName) with
  | some s => s
  | none =>
    match data.lookup "ccxt" with
    | some s => s
    | none => []

/-- `Provider.load_config` (provider.py lines 137-150): assign the
provider-named section wholesale when present, otherwise keep the previous
config value. -/
def providerLoadConfig (data : List (String × ConfigSect)) (providerName : String)
    (prev : ConfigSect) : ConfigSect :=
  match data.lookup providerName with
  | some s => s
  | none => prev

/-! ### Association-list write (Python dict assignment / file persistence) -/

/-- Write a key-value pair into an association list: replace the first
binding of the key in place, else append. Models Python `d[k] = v` and the
overwrite of a persisted file at a path. -/
def upsert {α β : Type} [BEq α] : List (α × β) → α → β → List (α × β)
  | [], k, v => [(k, v)]
  | (k', v') :: rest, k, v =>
    if k' == k then (k, v) :: rest else (k', v') :: upsert rest k v

/-! ### Symbol-info cache

Embedding of `Provider.get_symbol_info` (provider.py lines 161-191) over a
persisted-file store mapping toml paths to symbol metadata values. `fresh` is
the value `update_symbol_info()` computes for this provider instance; the
returned counter reports how many times `update_symbol_info` was invoked.
`SymInfo.save_toml` / `SymInfo.load_toml` (serialization collaborators
outside this layer) are assumed to round-trip faithfully, so the store holds
the metadata values themselves. -/

/-- `Provider.get_ohlcv_path` (provider.py lines 77-92): deterministic path
derivation from provider name, symbol and timeframe. -/
def getOhlcvPath (providerName symbol timeframe : String) : String :=
  providerName ++ "_" ++ ((symbol.replace "/" "_").replace ":" "_") ++ "_" ++
    timeframe ++ ".ohlcv"

/-- The symbol-info path: the ohlcv path with suffix `.toml`
(provider.py line 183, `with_suffix('.toml')`). -/
def symInfoTomlPath (providerName symbol timeframe : String) : String :=
  providerName ++ "_" ++ ((symbol.replace "/" "_").replace ":" "_") ++ "_" ++
    timeframe ++ ".toml"

/-- `Provider.get_symbol_info` (provider.py lines 171-191): if the info file
exists and no force update is requested, load and return it; otherwise call
`update_symbol_info`, persist the result, and return it. -/
def getSymbolInfo {S : Type} (fresh : S) (path : String) (store : List (String × S))
    (forceUpdate : Bool) : S × List (String × S) × ℕ :=
  match store.lookup path with
  | some s => if forceUpdate then (fresh, upsert store path fresh, 1) else (s, store, 0)
  | none => (fresh, upsert store path fresh, 1)

/-! ### Plugin manager

Embedding of `PluginManager.discover_plugins` and `PluginManager.load_plugin`
(plugin_manager.py lines 48-111 and 170-213). An entry point's distribution
metadata read (`entry_point.dist`, `dist.version`, `dist.metadata`) may raise;
this is embedded as an `Except` value carried by the entry point. The manager
state (`_discovered_plugins`, `_loaded_plugins`) is embedded as association
lists; Python dict writes are `upsert`. -/

/-- Distribution metadata of an installed package (version and Summary). -/
structure PluginDist where
  version : String
  summary : Option String
deriving DecidableEq

instance {e a : Type} [DecidableEq e] [DecidableEq a] : DecidableEq (Except e a) := fun x y =>
  match x, y with
  | .ok u, .ok v =>
    if h : u = v then isTrue (by rw [h]) else isFalse (fun hh => h (by cases hh; rfl))
  | .ok _, .error _ => isFalse (fun hh => Except.noConfusion hh)
  | .error _, .ok _ => isFalse (fun hh => Except.noConfusion hh)
  | .error u, .error v =>
    if h : u = v then isTrue (by rw [h]) else isFalse (fun hh => h (by cases hh; rfl))

/-- One external entry point declaration. `dist` is the outcome of reading its
distribution info: `.error msg` models an exception raised while processing,
`.ok none` models `entry_point.dist` being `None`. -/
structure PluginEntryPoint where
  name : String
  module : String
  attr : String
  dist : Except String (Option PluginDist)
deriving DecidableEq

/-- `PluginInfo` (plugin_manager.py lines 18-30). -/
structure PluginInfo where
  name : String
  version : String
  description : String
  entryPoint : String
  pluginType : String
  moduleName : String
  className : String
  installed : Bool
  loaded : Bool
  error : Option String
deriving DecidableEq

/-- `PluginManager._get_package_description` (plugin_manager.py lines 159-168). -/
def getPackageDescription : Option PluginDist → String
  | none => "No description available"
  | some d => d.summary.getD "No description available"

/-- The per-entry-point body of the discovery loop (plugin_manager.py lines
74-105): a successful read produces a descriptor with `error = none`; a raised
exception is caught and produces the error descriptor, never propagating. -/
def processEntryPoint (ptype : String) (ep : PluginEntryPoint) : PluginInfo :=
  match ep.dist with
  | .ok d =>
    { name := ep.name
      version := match d with | some d' => d'.version | none => "unknown"
      description := getPackageDescription d
      entryPoint := ep.module ++ ":" ++ ep.attr
      pluginType := ptype
      moduleName := ep.module
      className := ep.attr
      installed := true
      loaded := false
      error := none }
  | .error e =>
    { name := ep.name
      version := "unknown"
      description := "Failed to load plugin info"
      entryPoint := ep.module ++ ":" ++ ep.attr
      pluginType := ptype
      moduleName := ep.module
      className := ep.attr
      installed := true
      loaded := false
      error := some e }

/-- The discovery loop over one entry-point group (plugin_manager.py lines
69-105), accumulating into the `discovered` dict (which starts from the
built-in providers, `init`). -/
def discoverGroup (ptype : String) (eps : List PluginEntryPoint)
    (init : List (String × PluginInfo)) : List (String × PluginInfo) :=
  eps.foldl (fun acc ep => upsert acc ep.name (processEntryPoint ptype ep)) init

/-- `self._discovered_plugins.update(discovered)` (plugin_manager.py line
110): Python dict update, later entries overriding. -/
def updateState (state discovered : List (String × PluginInfo)) :
    List (String × PluginInfo) :=
  discovered.foldl (fun st kv => upsert st kv.1 kv.2) state

/-- `PluginManager.load_plugin` (plugin_manager.py lines 170-213) for a
plugin name already present in the discovery state: returns the cached class
if loaded; refuses (returning `none`) without attempting any import when the
descriptor records an error; otherwise imports (`impResult`), caching the
class and marking the descriptor loaded on success, or freezing the error
into the descriptor on failure. The imported class is modelled by its
qualified name. -/
def loadPlugin (loaded : List (String × String)) (discovered : List (String × PluginInfo))
    (pluginName : String) (impResult : Except String String) :
    Option String × List (String × String) × List (String × PluginInfo) :=
  match loaded.lookup pluginName with
  | some c => (some c, loaded, discovered)
  | none =>
    match discovered.lookup pluginName with
    | none => (none, loaded, discovered)
    | some info =>
      match info.error with
      | some _ => (none, loaded, discovered)
      | none =>
        match impResult with
        | .ok c => (some c, upsert loaded pluginName c,
            upsert discovered pluginName { info with loaded := true })
        | .error e => (none, loaded,
            upsert discovered pluginName
              { info with error := some ("Failed to load plugin: " ++ e) })

/-- Concrete entry points used by the plugin-manager witnesses. -/
def epAlpha : PluginEntryPoint :=
  { name := "alpha", module := "amod", attr := "AClass",
    dist := .ok (some { version := "1.0", summary := some "A provider" }) }

def epBravoFail : PluginEntryPoint :=
  { name := "bravo", module := "bmod", attr := "BClass",
    dist := .error "metadata read failed" }

def epCharlie : PluginEntryPoint :=
  { name := "charlie", module := "cmod", attr := "CClass",
    dist := .ok none }

/-- A descriptor frozen in the error state (as left by a failed
`load_plugin`). -/
def infoFrozenP : PluginInfo :=
  { name := "p", version := "1.0", description := "P provider",
    entryPoint := "pmod:PClass", pluginType := "provider", moduleName := "pmod",
    className := "PClass", installed := true, loaded := false,
    error := some "Failed to load plugin: boom" }

/-- The same plugin's entry point, whose processing now succeeds. -/
def epPGood : PluginEntryPoint :=
  { name := "p", module := "pmod", attr := "PClass",
    dist := .ok (some { version := "1.0", summary := some "P provider" }) }

/-! ### Download loops

Embedding of `CCXTProvider.download_ohlcv` (ccxt.py lines 281-373) and
`CapitalComProvider.download_ohlcv` (capitalcom.py lines 356-431). Instants
are integer epoch seconds (Python naive datetimes after the `tzinfo=None`
strip); CCXT raw rows carry millisecond timestamps as returned by
`fetch_ohlcv`; Capital.com rows carry the epoch seconds parsed from
`snapshotTime`. The fetch calls are oracles; a `.error` result models a
raised exception (anything but `StopIteration`). Each download returns the
final storage contents (`save_ohlcv_data` appends), the sequence of
`on_progress` arguments, and the propagated error if any. -/

/-- One stored bar (`pynecore.types.ohlcv.OHLCV`); the Python fields
open/high/low/close/volume are named o/h/l/c/v (`open` is reserved). -/
structure OHLCV where
  timestamp : ℤ
  o : ℚ
  h : ℚ
  l : ℚ
  c : ℚ
  v : ℚ
deriving DecidableEq

/-- A raised error: `fetchErr` is the original exception propagating out of
`CCXTProvider.download_ohlcv` unwrapped; `capitalComError` is the
`CapitalComError` wrapper raised by `CapitalComProvider.download_ohlcv`. -/
inductive PyErr where
  | fetchErr (msg : String)
  | capitalComError (msg : String)
deriving DecidableEq

/-- Whether an error value is a wrapping error type. -/
def PyErr.isWrapped : PyErr → Bool
  | .fetchErr _ => false
  | .capitalComError _ => true

/-- One raw row of a `fetch_ohlcv` response: `[ms, open, high, low, close,
volume]`, timestamp in milliseconds. -/
structure CcxtRow where
  ts : ℕ
  o : ℚ
  h : ℚ
  l : ℚ
  c : ℚ
  v : ℚ
deriving DecidableEq

/-- Conversion of a raw row to the saved bar (ccxt.py lines 360-369):
`t = int(r[0] / 1000)`. -/
def ccxtRowToOHLCV (r : CcxtRow) : OHLCV :=
  { timestamp := ((r.ts / 1000 : ℕ) : ℤ), o := r.o, h := r.h, l := r.l, c := r.c, v := r.v }

/-- The sort key relation of `all_data.sort(key=lambda x: x[0])`. -/
def ccxtRowLe (a b : CcxtRow) : Prop := a.ts ≤ b.ts

instance : DecidableRel ccxtRowLe := fun a b => inferInstanceAs (Decidable (a.ts ≤ b.ts))

instance : IsTotal CcxtRow ccxtRowLe := ⟨fun a b => Nat.le_total a.ts b.ts⟩

instance : IsTrans CcxtRow ccxtRowLe := ⟨fun _ _ _ hab hbc => Nat.le_trans hab hbc⟩

/-- `all_data.sort(key=lambda x: x[0])` (ccxt.py line 349): stable sort by
raw timestamp. -/
def ccxtSort (lst : List CcxtRow) : List CcxtRow := List.insertionSort ccxtRowLe lst

/-- The dedup pass (ccxt.py lines 351-357): `seen_timestamps` set, keep first
occurrence of each raw timestamp. -/
def ccxtDedup : List CcxtRow → List ℕ → List CcxtRow
  | [], _ => []
  | r :: rest, seen =>
    if r.ts ∈ seen then ccxtDedup rest seen else r :: ccxtDedup rest (r.ts :: seen)

/-- Sort then dedup, as applied to the collected rows before saving
(ccxt.py lines 348-357). -/
def ccxtProcess (lst : List CcxtRow) : List CcxtRow := ccxtDedup (ccxtSort lst) []

/-- The bars handed to `save_ohlcv_data`, in order (ccxt.py lines 359-370). -/
def ccxtSavedBars (lst : List CcxtRow) : List OHLCV := (ccxtProcess lst).map ccxtRowToOHLCV

/-- The in-loop row filter (ccxt.py lines 320-327): stop at the first row
past `tt`, keep rows at or after the original `time_from`. -/
def ccxtCollect (res : List CcxtRow) (origFrom tt : ℤ) : List CcxtRow :=
  match res with
  | [] => []
  | r :: rest =>
    let t : ℤ := ((r.ts / 1000 : ℕ) : ℤ)
    if t > tt then []
    else if origFrom ≤ t then r :: ccxtCollect rest origFrom tt
    else ccxtCollect rest origFrom tt

/-- The cursor advance interval (ccxt.py lines 333-341): the exchange
timeframe's own duration in seconds, from its suffix, defaulting to one
day. -/
def ccxtDelta (xtf : Option (List Char)) : ℤ :=
  match xtf with
  | some tf =>
    match tf.getLast? with
    | some 'd' => 86400 * (digitsToNat tf.dropLast : ℤ)
    | some 'h' => 3600 * (digitsToNat tf.dropLast : ℤ)
    | some 'm' => 60 * (digitsToNat tf.dropLast : ℤ)
    | _ => 86400
  | none => 86400

/-- The CCXT fetch loop (ccxt.py lines 301-346): while the cursor is before
`tt`, report progress, fetch one page, skip a day on an empty page, else
collect the in-range rows and advance the cursor past the page's last row by
the timeframe duration. An exception aborts the loop (only `StopIteration`
is caught in the source). -/
def ccxtFetchLoop (fetch : ℤ → Except String (List CcxtRow)) (origFrom tt delta : ℤ) :
    ℕ → ℤ → List CcxtRow → List ℤ → List CcxtRow × List ℤ × Option PyErr
  | 0, _, allData, progress => (allData, progress, none)
  | fuel' + 1, tf, allData, progress =>
    if tf < tt then
      match fetch tf with
      | .error e => (allData, progress ++ [tf], some (PyErr.fetchErr e))
      | .ok [] =>
        ccxtFetchLoop fetch origFrom tt delta fuel' (tf + 86400) allData (progress ++ [tf])
      | .ok (r :: rs) =>
        ccxtFetchLoop fetch origFrom tt delta fuel'
          ((((rs.getLastD r).ts / 1000 : ℕ) : ℤ) + delta)
          (allData ++ ccxtCollect (r :: rs) origFrom tt) (progress ++ [tf])
    else (allData, progress, none)

/-- The tail of `CCXTProvider.download_ohlcv` after the fetch loop: on an
uncaught exception it propagates before anything is saved; on normal exit
sort, dedup, save every bar, and report final progress at `time_to`
(ccxt.py lines 345-373). -/
def ccxtDownloadFinish (storage : List OHLCV) (timeTo : ℤ) (allData : List CcxtRow)
    (progress : List ℤ) : Option PyErr → List OHLCV × List ℤ × Option PyErr
  | some e => (storage, progress, some e)
  | none => (storage ++ ccxtSavedBars allData, progress ++ [timeTo], none)

/-- `CCXTProvider.download_ohlcv` (ccxt.py lines 281-373): the fetch loop
followed by the sort-dedup-save tail. -/
def ccxtDownload (fetch : ℤ → Except String (List CcxtRow)) (xtf : Option (List Char))
    (timeFrom timeTo : ℤ) (fuel : ℕ) (storage : List OHLCV) :
    List OHLCV × List ℤ × Option PyErr :=
  ccxtDownloadFinish storage timeTo
    (ccxtFetchLoop fetch timeFrom timeTo (ccxtDelta xtf) fuel timeFrom [] []).1
    (ccxtFetchLoop fetch timeFrom timeTo (ccxtDelta xtf) fuel timeFrom [] []).2.1
    (ccxtFetchLoop fetch timeFrom timeTo (ccxtDelta xtf) fuel timeFrom [] []).2.2

/-- One price row of a Capital.com `/prices` response, with the epoch-second
timestamp parsed from `snapshotTime` and the bid prices. -/
structure CapRow where
  ts : ℤ
  o : ℚ
  h : ℚ
  l : ℚ
  c : ℚ
  v : ℚ
deriving DecidableEq

/-- Conversion of a price row to the saved bar (capitalcom.py lines 406-419). -/
def capRowToOHLCV (r : CapRow) : OHLCV :=
  { timestamp := r.ts, o := r.o, h := r.h, l := r.l, c := r.c, v := r.v }

/-- The calendar chunk span (capitalcom.py lines 374-380). -/
def capitalChunkSize (xtf : List Char) : ℤ :=
  if xtf ∈ ["MINUTE".data, "MINUTE_5".data, "MINUTE_10".data, "MINUTE_15".data,
      "MINUTE_30".data] then 7 * 86400
  else if xtf ∈ ["HOUR".data, "HOUR_2".data, "HOUR_4".data] then 30 * 86400
  else 365 * 86400

/-- The Capital.com chunk loop (capitalcom.py lines 382-428): while the
cursor is before `tt`, report progress, fetch the chunk
`[cur, min(cur + chunk, tt)]`, save every returned row immediately (no
filtering, no dedup), and advance to the chunk end. Any exception is wrapped
into a `CapitalComError` carrying the underlying message; rows already saved
stay saved. -/
def capitalFetchLoop (fetch : ℤ → ℤ → Except String (List CapRow)) (chunk tt : ℤ) :
    ℕ → ℤ → List OHLCV → List ℤ → List OHLCV × List ℤ × Option PyErr
  | 0, _, storage, progress => (storage, progress, none)
  | fuel' + 1, cur, storage, progress =>
    if cur < tt then
      match fetch cur (min (cur + chunk) tt) with
      | .error e => (storage, progress ++ [cur],
          some (PyErr.capitalComError ("Error downloading OHLCV data: " ++ e)))
      | .ok [] =>
        capitalFetchLoop fetch chunk tt fuel' (min (cur + chunk) tt) storage
          (progress ++ [cur])
      | .ok (p :: ps) =>
        capitalFetchLoop fetch chunk tt fuel' (min (cur + chunk) tt)
          (storage ++ (p :: ps).map capRowToOHLCV) (progress ++ [cur])
    else (storage, progress, none)

/-- The tail of `CapitalComProvider.download_ohlcv` after the chunk loop: on
success report final progress at `time_to`; on error the wrapped exception
propagates and the final progress call is skipped (capitalcom.py lines
427-431). -/
def capitalDownloadFinish (timeTo : ℤ) (st : List OHLCV) (progress : List ℤ) :
    Option PyErr → List OHLCV × List ℤ × Option PyErr
  | some e => (st, progress, some e)
  | none => (st, progress ++ [timeTo], none)

/-- `CapitalComProvider.download_ohlcv` (capitalcom.py lines 356-431): the
chunk loop over the provider's chunk span followed by the final progress
report. -/
def capitalDownload (fetch : ℤ → ℤ → Except String (List CapRow)) (xtf : List Char)
    (timeFrom timeTo : ℤ) (fuel : ℕ) (storage : List OHLCV) :
    List OHLCV × List ℤ × Option PyErr :=
  capitalDownloadFinish timeTo
    (capitalFetchLoop fetch (capitalChunkSize xtf) timeTo fuel timeFrom storage []).1
    (capitalFetchLoop fetch (capitalChunkSize xtf) timeTo fuel timeFrom storage []).2.1
    (capitalFetchLoop fetch (capitalChunkSize xtf) timeTo fuel timeFrom storage []).2.2

/-- A Capital.com page oracle returning chunk-inclusive pages that share the
boundary timestamp 604800 (one bar at each chunk endpoint). -/
def capOverlapFetch : ℤ → ℤ → Except String (List CapRow) := fun a _ =>
  if a = 0 then .ok [⟨0, 1, 1, 1, 1, 0⟩, ⟨604800, 1, 1, 1, 1, 0⟩]
  else .ok [⟨604800, 1, 1, 1, 1, 0⟩, ⟨1209600, 1, 1, 1, 1, 0⟩]

/-- A CCXT fetch oracle whose every call raises. -/
def ccxtBoomFetch : ℤ → Except String (List CcxtRow) := fun _ => .error "boom"

/-- A Capital.com fetch oracle whose every call raises. -/
def capBoomFetch : ℤ → ℤ → Except String (List CapRow) := fun _ _ => .error "boom"

/-! ### Resume computation of the download CLI command

Embedding of the resume check in `download` (data.py lines 167-178). -/

/-- Modelled from the spec: the storage collaborator's last stored timestamp.
`pynecore.core.ohlcv_file.OHLCVReader` (the `end_timestamp` property read at
data.py line 172) is not under src/; per the spec's external interface,
"lastTimestamp(providerName, symbol, timeframe) -> integer or absent"
(section 6) returns the timestamp of the last stored Bar, and Bar timestamps
are "integer seconds since epoch" (section 3) — exactly the values the
providers in src/ pass to `save_ohlcv_data` (ccxt.py line 363, capitalcom.py
line 409). -/
def storageLastTimestamp (storage : List OHLCV) : Option ℤ :=
  (storage.getLast?).map OHLCV.timestamp

/-- The resume computation of the `download` CLI command (data.py lines
167-178): when the OHLCV file exists, set
`last_timestamp = reader.end_timestamp / 1000` ("Convert from milliseconds",
Python true division) and, when truthy, override `from_date` with that
instant. -/
def resumeFromDate (callerFrom : ℚ) (stored : Option ℤ) : ℚ :=
  match stored with
  | none => callerFrom
  | some ts =>
    let lastTimestamp : ℚ := (ts : ℚ) / 1000
    if lastTimestamp = 0 then callerFrom else lastTimestamp

/-! ### Theorems -/

theorem toNat_digitChar (d : ℕ) (h : d < 10) : (Char.ofNat (48 + d)).toNat = 48 + d := by
  interval_cases d <;> decide

theorem isDigit_digitChar (d : ℕ) (h : d < 10) : (Char.ofNat (48 + d)).isDigit = true := by
  interval_cases d <;> decide

theorem digitsToNat_from (a : ℕ) (l : List Char) :
    l.foldl (fun a c => 10 * a + (c.toNat - 48)) a = a * 10 ^ l.length + digitsToNat l := by
  induction l generalizing a with
  | nil => simp [digitsToNat]
  | cons c t ih =>
    simp only [List.foldl_cons, List.length_cons, digitsToNat]
    rw [ih, ih (10 * 0 + (c.toNat - 48))]
    ring

theorem digitsToNat_append (l1 l2 : List Char) :
    digitsToNat (l1 ++ l2) = digitsToNat l1 * 10 ^ l2.length + digitsToNat l2 := by
  unfold digitsToNat
  rw [List.foldl_append]
  exact digitsToNat_from _ l2

theorem lt_ten_pow_succ_self (n : ℕ) : n < 10 ^ (n + 1) := by
  have h : n + 1 < 10 ^ (n + 1) := Nat.lt_pow_self (by omega) (n + 1)
  omega

theorem natToChars_ne_nil (n : ℕ) : natToChars n ≠ [] := by
  unfold natToChars natToCharsAux
  split <;> simp

theorem digitsToNat_natToCharsAux (fuel : ℕ) :
    ∀ n, n < 10 ^ fuel → digitsToNat (natToCharsAux fuel n) = n := by
  induction fuel with
  | zero =>
    intro n h
    interval_cases n
    rfl
  | succ fuel ih =>
    intro n h
    unfold natToCharsAux
    split
    · rename_i h10
      simp [digitsToNat, toNat_digitChar n h10]
    · rename_i h10
      rw [digitsToNat_append]
      have hdiv : n / 10 < 10 ^ fuel := by
        rw [Nat.div_lt_iff_lt_mul (by omega)]
        calc n < 10 ^ (fuel + 1) := h
        _ = 10 ^ fuel * 10 := by ring
      have hm : n % 10 < 10 := Nat.mod_lt _ (by omega)
      rw [ih (n / 10) hdiv]
      simp [digitsToNat, toNat_digitChar _ hm]
      omega

theorem digitsToNat_natToChars (n : ℕ) : digitsToNat (natToChars n) = n :=
  digitsToNat_natToCharsAux (n + 1) n (lt_ten_pow_succ_self n)

theorem all_isDigit_natToCharsAux (fuel : ℕ) :
    ∀ n, (natToCharsAux fuel n).all Char.isDigit = true := by
  induction fuel with
  | zero => intro n; rfl
  | succ fuel ih =>
    intro n
    unfold natToCharsAux
    split
    · rename_i h10
      simp [isDigit_digitChar n h10]
    · rename_i h10
      have hm : n % 10 < 10 := Nat.mod_lt _ (by omega)
      simp [List.all_append, ih (n / 10), isDigit_digitChar _ hm]

theorem pyIsDigit_natToChars (n : ℕ) : pyIsDigit (natToChars n) = true := by
  unfold pyIsDigit
  rw [natToChars, all_isDigit_natToCharsAux]
  cases h : natToChars n with
  | nil => exact absurd h (natToChars_ne_nil n)
  | cons c t =>
    rw [natToChars] at h
    rw [h]
    simp

theorem length_natToChars_pos (n : ℕ) : 0 < (natToChars n).length :=
  List.length_pos.mpr (natToChars_ne_nil n)

/-! Characterization of the codecs on canonically rendered inputs. -/

theorem ccxtToTV_native (n : ℕ) (h : 0 < n) (u : Char) :
    ccxtToTV (ccxtNative n u) =
      if u = 'm' then some (natToChars n)
      else if u = 'h' then some (natToChars (n * 60))
      else if u = 'd' then some (natToChars n ++ ['D'])
      else if u = 'w' then some (natToChars n ++ ['W'])
      else if u = 'M' then some (natToChars n ++ ['M'])
      else none := by
  unfold ccxtToTV ccxtNative
  have hlen : ¬ (natToChars n ++ [u]).length < 2 := by
    have := length_natToChars_pos n
    simp only [List.length_append, List.length_cons, List.length_nil]
    omega
  rw [if_neg hlen, List.getLast?_concat]
  simp only [List.dropLast_concat, pyIsDigit_natToChars, digitsToNat_natToChars]
  simp [h.ne']

theorem ccxtToXchg_digits (k : ℕ) (h : 0 < k) :
    ccxtToXchg (natToChars k) =
      if 60 ≤ k ∧ k % 60 = 0 then some (natToChars (k / 60) ++ ['h'])
      else some (natToChars k ++ ['m']) := by
  unfold ccxtToXchg
  rw [if_pos (pyIsDigit_natToChars k)]
  simp only [digitsToNat_natToChars]
  simp [h.ne']

theorem ccxtToXchg_unitCap (n : ℕ) (h : 0 < n) (u : Char) (hu : u.isDigit = false) :
    ccxtToXchg (natToChars n ++ [u]) =
      if u.toUpper = 'D' then some (natToChars n ++ ['d'])
      else if u.toUpper = 'W' then some (natToChars n ++ ['w'])
      else if u.toUpper = 'M' then some (natToChars n ++ ['M'])
      else none := by
  unfold ccxtToXchg
  have hpd : ¬ (pyIsDigit (natToChars n ++ [u]) = true) := by
    unfold pyIsDigit
    simp [List.all_append, hu]
  rw [if_neg hpd]
  have hlen : ¬ (natToChars n ++ [u]).length < 2 := by
    have := length_natToChars_pos n
    simp only [List.length_append, List.length_cons, List.length_nil]
    omega
  rw [if_neg hlen, List.getLast?_concat]
  simp only [List.dropLast_concat, pyIsDigit_natToChars, digitsToNat_natToChars]
  simp [h.ne']

/-! Per-unit round-trip lemmas for the CCXT codec. -/

theorem ccxt_roundtrip_h (n : ℕ) (h : 0 < n) :
    (ccxtToTV (ccxtNative n 'h')).bind ccxtToXchg = some (ccxtNative n 'h') := by
  rw [ccxtToTV_native n h 'h', if_neg (by decide : ¬ ('h' : Char) = 'm'),
    if_pos (rfl : ('h' : Char) = 'h'), Option.some_bind']
  rw [ccxtToXchg_digits (n * 60) (by omega)]
  have hc : 60 ≤ n * 60 ∧ n * 60 % 60 = 0 := ⟨by omega, by omega⟩
  rw [if_pos hc, Nat.mul_div_cancel n (by omega)]
  rfl

theorem ccxt_roundtrip_d (n : ℕ) (h : 0 < n) :
    (ccxtToTV (ccxtNative n 'd')).bind ccxtToXchg = some (ccxtNative n 'd') := by
  rw [ccxtToTV_native n h 'd', if_neg (by decide : ¬ ('d' : Char) = 'm'),
    if_neg (by decide : ¬ ('d' : Char) = 'h'), if_pos (rfl : ('d' : Char) = 'd'),
    Option.some_bind']
  rw [ccxtToXchg_unitCap n h 'D' (by decide)]
  rfl

theorem ccxt_roundtrip_w (n : ℕ) (h : 0 < n) :
    (ccxtToTV (ccxtNative n 'w')).bind ccxtToXchg = some (ccxtNative n 'w') := by
  rw [ccxtToTV_native n h 'w', if_neg (by decide : ¬ ('w' : Char) = 'm'),
    if_neg (by decide : ¬ ('w' : Char) = 'h'), if_neg (by decide : ¬ ('w' : Char) = 'd'),
    if_pos (rfl : ('w' : Char) = 'w'), Option.some_bind']
  rw [ccxtToXchg_unitCap n h 'W' (by decide)]
  rfl

theorem ccxt_roundtrip_bigM (n : ℕ) (h : 0 < n) :
    (ccxtToTV (ccxtNative n 'M')).bind ccxtToXchg = some (ccxtNative n 'M') := by
  rw [ccxtToTV_native n h 'M', if_neg (by decide : ¬ ('M' : Char) = 'm'),
    if_neg (by decide : ¬ ('M' : Char) = 'h'), if_neg (by decide : ¬ ('M' : Char) = 'd'),
    if_neg (by decide : ¬ ('M' : Char) = 'w'), if_pos (rfl : ('M' : Char) = 'M'),
    Option.some_bind']
  rw [ccxtToXchg_unitCap n h 'M' (by decide)]
  rfl

theorem ccxt_roundtrip_m (n : ℕ) (h : 0 < n) (hnot : ¬ (60 ≤ n ∧ n % 60 = 0)) :
    (ccxtToTV (ccxtNative n 'm')).bind ccxtToXchg = some (ccxtNative n 'm') := by
  rw [ccxtToTV_native n h 'm', if_pos (rfl : ('m' : Char) = 'm'), Option.some_bind']
  rw [ccxtToXchg_digits n h, if_neg hnot]
  rfl

/-! Canonical-side round trips: `toCanonical (toNative c) = c` for every
canonical value in the image of `toCanonical`. -/

theorem ccxt_canonical_digits (k : ℕ) (h : 0 < k) :
    (ccxtToXchg (natToChars k)).bind ccxtToTV = some (natToChars k) := by
  rw [ccxtToXchg_digits k h]
  by_cases hc : 60 ≤ k ∧ k % 60 = 0
  · rw [if_pos hc, Option.some_bind']
    have h60 : 0 < k / 60 := Nat.div_pos hc.1 (by omega)
    rw [show natToChars (k / 60) ++ ['h'] = ccxtNative (k / 60) 'h' from rfl,
      ccxtToTV_native (k / 60) h60 'h', if_neg (by decide : ¬ ('h' : Char) = 'm'),
      if_pos (rfl : ('h' : Char) = 'h'),
      Nat.div_mul_cancel (Nat.dvd_of_mod_eq_zero hc.2)]
  · rw [if_neg hc, Option.some_bind',
      show natToChars k ++ ['m'] = ccxtNative k 'm' from rfl,
      ccxtToTV_native k h 'm', if_pos (rfl : ('m' : Char) = 'm')]

theorem ccxt_canonical_D (n : ℕ) (h : 0 < n) :
    (ccxtToXchg (natToChars n ++ ['D'])).bind ccxtToTV = some (natToChars n ++ ['D']) := by
  rw [ccxtToXchg_unitCap n h 'D' (by decide), if_pos (by decide : Char.toUpper 'D' = 'D'),
    Option.some_bind', show natToChars n ++ ['d'] = ccxtNative n 'd' from rfl,
    ccxtToTV_native n h 'd', if_neg (by decide : ¬ ('d' : Char) = 'm'),
    if_neg (by decide : ¬ ('d' : Char) = 'h'), if_pos (rfl : ('d' : Char) = 'd')]

theorem ccxt_canonical_W (n : ℕ) (h : 0 < n) :
    (ccxtToXchg (natToChars n ++ ['W'])).bind ccxtToTV = some (natToChars n ++ ['W']) := by
  rw [ccxtToXchg_unitCap n h 'W' (by decide), if_neg (by decide : ¬ Char.toUpper 'W' = 'D'),
    if_pos (by decide : Char.toUpper 'W' = 'W'),
    Option.some_bind', show natToChars n ++ ['w'] = ccxtNative n 'w' from rfl,
    ccxtToTV_native n h 'w', if_neg (by decide : ¬ ('w' : Char) = 'm'),
    if_neg (by decide : ¬ ('w' : Char) = 'h'), if_neg (by decide : ¬ ('w' : Char) = 'd'),
    if_pos (rfl : ('w' : Char) = 'w')]

theorem ccxt_canonical_bigM (n : ℕ) (h : 0 < n) :
    (ccxtToXchg (natToChars n ++ ['M'])).bind ccxtToTV = some (natToChars n ++ ['M']) := by
  rw [ccxtToXchg_unitCap n h 'M' (by decide), if_neg (by decide : ¬ Char.toUpper 'M' = 'D'),
    if_neg (by decide : ¬ Char.toUpper 'M' = 'W'), if_pos (by decide : Char.toUpper 'M' = 'M'),
    Option.some_bind', show natToChars n ++ ['M'] = ccxtNative n 'M' from rfl,
    ccxtToTV_native n h 'M', if_neg (by decide : ¬ ('M' : Char) = 'm'),
    if_neg (by decide : ¬ ('M' : Char) = 'h'), if_neg (by decide : ¬ ('M' : Char) = 'd'),
    if_neg (by decide : ¬ ('M' : Char) = 'w'), if_pos (rfl : ('M' : Char) = 'M')]
  rfl

/-- C3 counterexample: the round-trip law fails on the CCXT vocabulary at the
native value "60m" (N=60, unit m): `to_tradingview_timeframe "60m" = "60"`,
but `to_exchange_timeframe "60"` normalizes to "1h", not "60m". -/
theorem C3_counterexample :
    ccxtToTV "60m".data = some "60".data ∧ ccxtToXchg "60".data = some "1h".data ∧
      "1h".data ≠ "60m".data ∧
      (ccxtToTV "60m".data).bind ccxtToXchg ≠ some "60m".data :=
  ⟨by decide, by decide, by decide, by decide⟩

/-- C3 (amended): the native-side round-trip `toNative (toCanonical v) = v`
holds for every CCXT native `{N}{h|d|w|M}` with N > 0 and for `{N}m` except
when N is a multiple of 60 at least 60 (such values re-render as hours); the
canonical-side round-trip `toCanonical (toNative c) = c` holds for every
canonical value in the image of `toCanonical`; and both round-trip laws hold
for the entire enumerated Capital.com vocabulary. -/
theorem C3_roundtrip_amended :
    (∀ n : ℕ, 0 < n →
      (ccxtToTV (ccxtNative n 'h')).bind ccxtToXchg = some (ccxtNative n 'h') ∧
      (ccxtToTV (ccxtNative n 'd')).bind ccxtToXchg = some (ccxtNative n 'd') ∧
      (ccxtToTV (ccxtNative n 'w')).bind ccxtToXchg = some (ccxtNative n 'w') ∧
      (ccxtToTV (ccxtNative n 'M')).bind ccxtToXchg = some (ccxtNative n 'M') ∧
      (¬ (60 ≤ n ∧ n % 60 = 0) →
        (ccxtToTV (ccxtNative n 'm')).bind ccxtToXchg = some (ccxtNative n 'm'))) ∧
    (∀ n : ℕ, 0 < n → ∀ u ∈ (['m', 'h', 'd', 'w', 'M'] : List Char), ∀ c,
      ccxtToTV (ccxtNative n u) = some c → (ccxtToXchg c).bind ccxtToTV = some c) ∧
    (∀ v ∈ capitalTimeframes.map Prod.snd,
      (capToTV v).bind capToXchg = some v ∧
      (capToTV v).bind (fun c => (capToXchg c).bind capToTV) = capToTV v) := by
  refine ⟨fun n h => ⟨ccxt_roundtrip_h n h, ccxt_roundtrip_d n h, ccxt_roundtrip_w n h,
    ccxt_roundtrip_bigM n h, ccxt_roundtrip_m n h⟩, ?_, by decide⟩
  intro n h u hu c hc
  have hm : u = 'm' ∨ u = 'h' ∨ u = 'd' ∨ u = 'w' ∨ u = 'M' := by
    simpa using hu
  rcases hm with rfl | rfl | rfl | rfl | rfl
  · rw [ccxtToTV_native n h 'm', if_pos (rfl : ('m' : Char) = 'm')] at hc
    cases hc
    exact ccxt_canonical_digits n h
  · rw [ccxtToTV_native n h 'h', if_neg (by decide : ¬ ('h' : Char) = 'm'),
      if_pos (rfl : ('h' : Char) = 'h')] at hc
    cases hc
    exact ccxt_canonical_digits (n * 60) (by omega)
  · rw [ccxtToTV_native n h 'd', if_neg (by decide : ¬ ('d' : Char) = 'm'),
      if_neg (by decide : ¬ ('d' : Char) = 'h'), if_pos (rfl : ('d' : Char) = 'd')] at hc
    cases hc
    exact ccxt_canonical_D n h
  · rw [ccxtToTV_native n h 'w', if_neg (by decide : ¬ ('w' : Char) = 'm'),
      if_neg (by decide : ¬ ('w' : Char) = 'h'), if_neg (by decide : ¬ ('w' : Char) = 'd'),
      if_pos (rfl : ('w' : Char) = 'w')] at hc
    cases hc
    exact ccxt_canonical_W n h
  · rw [ccxtToTV_native n h 'M', if_neg (by decide : ¬ ('M' : Char) = 'm'),
      if_neg (by decide : ¬ ('M' : Char) = 'h'), if_neg (by decide : ¬ ('M' : Char) = 'd'),
      if_neg (by decide : ¬ ('M' : Char) = 'w'), if_pos (rfl : ('M' : Char) = 'M')] at hc
    cases hc
    exact ccxt_canonical_bigM n h

/-- C3 witness: the amended round-trip at concrete inputs "2h", "90m" and
canonical "60". -/
theorem C3_roundtrip_witness :
    (ccxtToTV (ccxtNative 2 'h')).bind ccxtToXchg = some (ccxtNative 2 'h') ∧
    (ccxtToTV (ccxtNative 90 'm')).bind ccxtToXchg = some (ccxtNative 90 'm') ∧
    (ccxtToXchg "60".data).bind ccxtToTV = some "60".data := by
  refine ⟨(C3_roundtrip_amended.1 2 (by decide)).1,
    (C3_roundtrip_amended.1 90 (by decide)).2.2.2.2 (by decide), ?_⟩
  have h := C3_roundtrip_amended.2.1 60 (by decide) 'm' (by decide) "60".data (by decide)
  simpa using h

theorem priceScaleLoop_exit (k : ℕ) :
    ∀ (m : ℚ) (p : ℕ) (fuel : ℕ), (∀ j < k, m * 10 ^ j < 1) → 1 ≤ m * 10 ^ k →
      k ≤ fuel → priceScaleLoop fuel m p = (m * 10 ^ k, p * 10 ^ k) := by
  induction k with
  | zero =>
    intro m p fuel _ hge _
    rw [pow_zero, mul_one] at hge
    cases fuel with
    | zero => simp [priceScaleLoop]
    | succ fuel => simp [priceScaleLoop, not_lt.mpr hge]
  | succ k ih =>
    intro m p fuel hlt hge hfuel
    have hm : m < 1 := by
      have := hlt 0 (Nat.succ_pos k)
      rwa [pow_zero, mul_one] at this
    cases fuel with
    | zero => omega
    | succ fuel =>
      rw [priceScaleLoop, if_pos hm]
      have h1 : ∀ j < k, m * 10 * 10 ^ j < 1 := by
        intro j hj
        have := hlt (j + 1) (by omega)
        rw [pow_succ] at this
        calc m * 10 * 10 ^ j = m * (10 ^ j * 10) := by ring
        _ < 1 := this
      have h2 : 1 ≤ m * 10 * 10 ^ k := by
        rw [pow_succ] at hge
        calc (1 : ℚ) ≤ m * (10 ^ k * 10) := hge
        _ = m * 10 * 10 ^ k := by ring
      rw [ih (m * 10) (p * 10) fuel h1 h2 (by omega)]
      rw [pow_succ, Prod.mk.injEq]
      exact ⟨by ring, by ring⟩

theorem priceScaleLoop_nonpos :
    ∀ (fuel : ℕ) (m : ℚ) (p : ℕ), m ≤ 0 →
      priceScaleLoop fuel m p = (m * 10 ^ fuel, p * 10 ^ fuel) := by
  intro fuel
  induction fuel with
  | zero => intro m p _; simp [priceScaleLoop]
  | succ fuel ih =>
    intro m p hm
    rw [priceScaleLoop, if_pos (lt_of_le_of_lt hm one_pos)]
    rw [ih (m * 10) (p * 10) (by nlinarith)]
    rw [pow_succ, Prod.mk.injEq]
    exact ⟨by ring, by ring⟩

/-- C10: for each tick size strictly greater than 0 the price-scale loop
terminates — there is an iteration count k, the least one, after which further
fuel does not change the result — ending with minmove = mintick * 10^k ≥ 1 and
pricescale = 10^k, the power of ten reached; for tick size ≤ 0 the loop body
never makes progress toward the exit condition: it consumes any amount of fuel
and minmove stays below 1. -/
theorem C10_price_scale_termination :
    ∀ mintick : ℚ,
      (0 < mintick → ∃ k : ℕ, 1 ≤ mintick * 10 ^ k ∧ (∀ j < k, mintick * 10 ^ j < 1) ∧
        ∀ fuel, k ≤ fuel → priceScaleLoop fuel mintick 1 = (mintick * 10 ^ k, 10 ^ k)) ∧
      (mintick ≤ 0 → ∀ fuel,
        priceScaleLoop fuel mintick 1 = (mintick * 10 ^ fuel, 10 ^ fuel) ∧
        (priceScaleLoop fuel mintick 1).1 < 1) := by
  intro mintick
  constructor
  · intro hpos
    have hex : ∃ j : ℕ, 1 ≤ mintick * 10 ^ j := by
      obtain ⟨j, hj⟩ := pow_unbounded_of_one_lt (1 / mintick) (by norm_num : (1 : ℚ) < 10)
      refine ⟨j, ?_⟩
      rw [div_lt_iff₀ hpos] at hj
      calc (1 : ℚ) ≤ 10 ^ j * mintick := le_of_lt hj
      _ = mintick * 10 ^ j := mul_comm _ _
    refine ⟨Nat.find hex, Nat.find_spec hex, fun j hj => ?_, fun fuel hfuel => ?_⟩
    · exact lt_of_not_le (Nat.find_min hex hj)
    · have := priceScaleLoop_exit (Nat.find hex) mintick 1 fuel
        (fun j hj => lt_of_not_le (Nat.find_min hex hj)) (Nat.find_spec hex) hfuel
      rwa [one_mul] at this
  · intro hnp fuel
    have h := priceScaleLoop_nonpos fuel mintick 1 hnp
    rw [one_mul] at h
    refine ⟨h, ?_⟩
    rw [h]
    have : mintick * 10 ^ fuel ≤ 0 :=
      mul_nonpos_iff.mpr (Or.inr ⟨hnp, by positivity⟩)
    exact lt_of_le_of_lt this one_pos

/-- C10 witness: the loop applied to tick sizes 0 (no progress) and 1
(immediate exit, k = 0). -/
theorem C10_price_scale_witness :
    priceScaleLoop 3 (0 : ℚ) 1 = ((0 : ℚ) * 10 ^ 3, 10 ^ 3) ∧
    (priceScaleLoop 3 (0 : ℚ) 1).1 < 1 ∧
    priceScaleLoop 5 (1 : ℚ) 1 = ((1 : ℚ) * 10 ^ 0, 10 ^ 0) := by
  obtain ⟨hz1, hz2⟩ := (C10_price_scale_termination 0).2 (le_refl 0) 3
  obtain ⟨k, h1, h2, h3⟩ := (C10_price_scale_termination 1).1 one_pos
  have hk : k = 0 := by
    by_contra hne
    exact absurd (h2 0 (Nat.pos_of_ne_zero hne)) (by norm_num)
  subst hk
  exact ⟨hz1, hz2, h3 5 (Nat.zero_le 5)⟩

/-- C7 counterexample: with both a shared [ccxt] default section (holding
apiKey and secret) and a specific [ccxt.binance] section (holding only
apiKey), the resolved config is the specific section verbatim: the
shared-default key "secret" is not retained, contradicting the claimed
merge semantics. -/
theorem C7_counterexample :
    ccxtResolveConfig
        [("ccxt.binance", [("apiKey", "x")]), ("ccxt", [("apiKey", "y"), ("secret", "z")])]
        "binance" = [("apiKey", "x")] ∧
      (ccxtResolveConfig
        [("ccxt.binance", [("apiKey", "x")]), ("ccxt", [("apiKey", "y"), ("secret", "z")])]
        "binance").lookup "secret" = none ∧
      ([("apiKey", "y"), ("secret", "z")] : ConfigSect).lookup "secret" = some "z" :=
  ⟨by decide, by decide, by decide⟩

/-- C7 (amended): Provider construction resolves the config mapping either-or,
not by merging: when a section keyed "ccxt.<exchange>" exists it is taken
verbatim (its keys win, but shared-default keys absent from it are dropped);
only when no such section exists is the shared "ccxt" section taken, also
verbatim; `Provider.load_config` likewise assigns the provider-named section
wholesale. -/
theorem C7_config_resolution_amended :
    ∀ (data : List (String × ConfigSect)) (name : String) (spec dflt : ConfigSect),
      (data.lookup ("ccxt." ++ name) = some spec →
        ccxtResolveConfig data name = spec ∧
        ∀ k, spec.lookup k = none → (ccxtResolveConfig data name).lookup k = none) ∧
      (data.lookup ("ccxt." ++ name) = none → data.lookup "ccxt" = some dflt →
        ccxtResolveConfig data name = dflt) ∧
      (data.lookup name = some spec → ∀ prev, providerLoadConfig data name prev = spec) := by
  intro data name spec dflt
  refine ⟨fun h => ?_, fun h1 h2 => ?_, fun h prev => ?_⟩
  · have he : ccxtResolveConfig data name = spec := by
      unfold ccxtResolveConfig
      rw [h]
    exact ⟨he, fun k hk => by rw [he]; exact hk⟩
  · unfold ccxtResolveConfig
    rw [h1, h2]
  · unfold providerLoadConfig
    rw [h]

/-- C7 witness: the amended resolution at the concrete two-section file. -/
theorem C7_config_resolution_witness :
    ccxtResolveConfig
        [("ccxt.binance", [("apiKey", "x")]), ("ccxt", [("apiKey", "y"), ("secret", "z")])]
        "binance" = [("apiKey", "x")] ∧
      providerLoadConfig [("capitalcom", [("demo", "true")])] "capitalcom" [] =
        [("demo", "true")] := by
  constructor
  · exact (C7_config_resolution_amended
      [("ccxt.binance", [("apiKey", "x")]), ("ccxt", [("apiKey", "y"), ("secret", "z")])]
      "binance" [("apiKey", "x")] []).1 (by decide) |>.1
  · exact (C7_config_resolution_amended [("capitalcom", [("demo", "true")])]
      "capitalcom" [("demo", "true")] []).2.2 (by decide) []

theorem lookup_upsert_self {α β : Type} [BEq α] [LawfulBEq α]
    (m : List (α × β)) (k : α) (v : β) : (upsert m k v).lookup k = some v := by
  induction m with
  | nil => simp [upsert, List.lookup]
  | cons kv rest ih =>
    obtain ⟨k', v'⟩ := kv
    rw [upsert]
    by_cases h : k' == k
    · rw [if_pos h]
      simp [List.lookup]
    · rw [if_neg h]
      rw [List.lookup]
      have hne : (k == k') = false := by
        rw [beq_eq_false_iff_ne]
        intro he
        subst he
        exact h (beq_self_eq_true k)
      rw [hne]
      exact ih

theorem lookup_upsert_ne {α β : Type} [BEq α] [LawfulBEq α]
    (m : List (α × β)) (k k' : α) (v : β) (h : ¬ k' = k) :
    (upsert m k v).lookup k' = m.lookup k' := by
  induction m with
  | nil =>
    simp only [upsert, List.lookup]
    rw [show (k' == k) = false from beq_eq_false_iff_ne.mpr h]
  | cons kv rest ih =>
    obtain ⟨ka, va⟩ := kv
    rw [upsert]
    by_cases hk : ka == k
    · rw [if_pos hk]
      rw [List.lookup, List.lookup]
      rw [show (k' == k) = false from beq_eq_false_iff_ne.mpr h]
      have hka : ka = k := eq_of_beq hk
      rw [show (k' == ka) = false from beq_eq_false_iff_ne.mpr (hka ▸ h)]
    · rw [if_neg hk]
      rw [List.lookup, List.lookup]
      cases hbeq : k' == ka
      · exact ih
      · rfl

/-- C8: calling `get_symbol_info` twice with `force_update = false` on the
same provider instance returns equal metadata, invokes `update_symbol_info`
at most once across both calls (and never on the second call), persists the
first result at the path derived deterministically from
(provider, symbol, timeframe) before returning it, and the second call
returns the persisted copy leaving the store untouched. -/
theorem C8_symbol_info_cache :
    ∀ (S : Type) (fresh : S) (providerName symbol timeframe : String)
      (store : List (String × S)),
      (getSymbolInfo fresh (symInfoTomlPath providerName symbol timeframe) store false).1 =
        (getSymbolInfo fresh (symInfoTomlPath providerName symbol timeframe)
          (getSymbolInfo fresh (symInfoTomlPath providerName symbol timeframe) store
            false).2.1 false).1 ∧
      (getSymbolInfo fresh (symInfoTomlPath providerName symbol timeframe) store false).2.2 +
        (getSymbolInfo fresh (symInfoTomlPath providerName symbol timeframe)
          (getSymbolInfo fresh (symInfoTomlPath providerName symbol timeframe) store
            false).2.1 false).2.2 ≤ 1 ∧
      (getSymbolInfo fresh (symInfoTomlPath providerName symbol timeframe)
        (getSymbolInfo fresh (symInfoTomlPath providerName symbol timeframe) store
          false).2.1 false).2.2 = 0 ∧
      ((getSymbolInfo fresh (symInfoTomlPath providerName symbol timeframe) store
          false).2.1).lookup (symInfoTomlPath providerName symbol timeframe) =
        some (getSymbolInfo fresh (symInfoTomlPath providerName symbol timeframe) store
          false).1 ∧
      (getSymbolInfo fresh (symInfoTomlPath providerName symbol timeframe)
        (getSymbolInfo fresh (symInfoTomlPath providerName symbol timeframe) store
          false).2.1 false).2.1 =
        (getSymbolInfo fresh (symInfoTomlPath providerName symbol timeframe) store
          false).2.1 := by
  intro S fresh providerName symbol timeframe store
  set path := symInfoTomlPath providerName symbol timeframe with hpath
  cases h : store.lookup path with
  | some s =>
    simp [getSymbolInfo, h]
  | none =>
    have h2 : (upsert store path fresh).lookup path = some fresh :=
      lookup_upsert_self store path fresh
    simp [getSymbolInfo, h, h2]

theorem lookup_discoverGroup_not_mem (t : String) (eps : List PluginEntryPoint)
    (init : List (String × PluginInfo)) (k : String) (h : ∀ ep ∈ eps, ep.name ≠ k) :
    (discoverGroup t eps init).lookup k = init.lookup k := by
  induction eps generalizing init with
  | nil => rfl
  | cons e rest ih =>
    show (discoverGroup t rest (upsert init e.name (processEntryPoint t e))).lookup k = _
    rw [ih (upsert init e.name (processEntryPoint t e)) (fun x hx => h x (List.mem_cons_of_mem e hx))]
    exact lookup_upsert_ne init e.name k (processEntryPoint t e)
      (fun he => h e (List.mem_cons_self e rest) he.symm)

theorem lookup_discoverGroup_mem (t : String) (eps : List PluginEntryPoint)
    (init : List (String × PluginInfo)) (ep : PluginEntryPoint) (hmem : ep ∈ eps)
    (hnd : (eps.map PluginEntryPoint.name).Nodup) :
    (discoverGroup t eps init).lookup ep.name = some (processEntryPoint t ep) := by
  induction eps generalizing init with
  | nil => exact absurd hmem (List.not_mem_nil ep)
  | cons e rest ih =>
    rw [List.map_cons, List.nodup_cons] at hnd
    rcases List.mem_cons.mp hmem with rfl | hmem'
    · show (discoverGroup t rest (upsert init ep.name (processEntryPoint t ep))).lookup
        ep.name = _
      rw [lookup_discoverGroup_not_mem t rest _ ep.name
        (fun x hx hxe => hnd.1 (hxe ▸ List.mem_map_of_mem PluginEntryPoint.name hx))]
      exact lookup_upsert_self init ep.name (processEntryPoint t ep)
    · exact ih _ hmem' hnd.2

theorem upsert_of_keys_ne {α β : Type} [BEq α] [LawfulBEq α]
    (m : List (α × β)) (k : α) (v : β) (h : ∀ kv ∈ m, kv.1 ≠ k) :
    upsert m k v = m ++ [(k, v)] := by
  induction m with
  | nil => rfl
  | cons kv rest ih =>
    obtain ⟨ka, va⟩ := kv
    rw [upsert, if_neg, List.cons_append, ih (fun x hx => h x (List.mem_cons_of_mem _ hx))]
    intro hbeq
    exact h (ka, va) (List.mem_cons_self _ rest) (eq_of_beq hbeq)

theorem discoverGroup_eq_append (t : String) :
    ∀ (eps : List PluginEntryPoint) (init : List (String × PluginInfo)),
      (eps.map PluginEntryPoint.name).Nodup →
      (∀ ep ∈ eps, ∀ kv ∈ init, kv.1 ≠ ep.name) →
      discoverGroup t eps init =
        init ++ eps.map (fun ep => (ep.name, processEntryPoint t ep)) := by
  intro eps
  induction eps with
  | nil => intro init _ _; simp [discoverGroup]
  | cons e rest ih =>
    intro init hnd hdisj
    rw [List.map_cons, List.nodup_cons] at hnd
    show discoverGroup t rest (upsert init e.name (processEntryPoint t e)) = _
    rw [upsert_of_keys_ne init e.name (processEntryPoint t e)
      (fun kv hkv => hdisj e (List.mem_cons_self e rest) kv hkv)]
    rw [ih (init ++ [(e.name, processEntryPoint t e)]) hnd.2 ?_]
    · simp
    · intro ep hep kv hkv
      rcases List.mem_append.mp hkv with hin | hsing
      · exact hdisj ep (List.mem_cons_of_mem e hep) kv hin
      · rcases List.mem_singleton.mp hsing with rfl
        intro hcontra
        refine hnd.1 ?_
        rw [show e.name = ep.name from hcontra]
        exact List.mem_map_of_mem PluginEntryPoint.name hep

theorem lookup_updateState_not_mem (st : List (String × PluginInfo))
    (disc : List (String × PluginInfo)) (k : String)
    (h : ∀ kv ∈ disc, kv.1 ≠ k) : (updateState st disc).lookup k = st.lookup k := by
  induction disc generalizing st with
  | nil => rfl
  | cons kv rest ih =>
    show (updateState (upsert st kv.1 kv.2) rest).lookup k = _
    rw [ih (upsert st kv.1 kv.2) (fun x hx => h x (List.mem_cons_of_mem kv hx))]
    exact lookup_upsert_ne st kv.1 k kv.2
      (fun he => h kv (List.mem_cons_self kv rest) he.symm)

theorem lookup_updateState_mem (st : List (String × PluginInfo))
    (l1 l2 : List (String × PluginInfo)) (k : String) (v : PluginInfo)
    (h2 : ∀ kv ∈ l2, kv.1 ≠ k) :
    (updateState st (l1 ++ (k, v) :: l2)).lookup k = some v := by
  unfold updateState
  rw [List.foldl_append, List.foldl_cons]
  have hrw : List.foldl (fun st kv => upsert st kv.1 kv.2)
      (upsert (List.foldl (fun st kv => upsert st kv.1 kv.2) st l1) k v) l2 =
      updateState (upsert (updateState st l1) k v) l2 := rfl
  rw [hrw, lookup_updateState_not_mem _ l2 k h2]
  exact lookup_upsert_self _ k v

/-- C5: one discovery pass in which processing one external entry point fails
(with exception message m) still discovers every other entry point: the
failing plugin's descriptor records error = m (non-empty when m is), every
other entry point's descriptor ends the pass with error = none, equal to the
descriptor it would get in the pass where the failing entry point succeeds
instead (so its loaded state is unaffected by the failure), and descriptors
of names outside the entry-point group (e.g. built-ins in `init`) pass
through unchanged in both passes. -/
theorem C5_discovery_isolation :
    ∀ (t : String) (l1 l2 : List PluginEntryPoint) (bad : PluginEntryPoint)
      (init : List (String × PluginInfo)) (m : String) (d : Option PluginDist),
      bad.dist = .error m → m ≠ "" →
      (∀ ep ∈ l1 ++ l2, ∃ dd, ep.dist = .ok dd) →
      ((l1 ++ bad :: l2).map PluginEntryPoint.name).Nodup →
      ((discoverGroup t (l1 ++ bad :: l2) init).lookup bad.name =
          some (processEntryPoint t bad) ∧
        (processEntryPoint t bad).error = some m ∧
        (processEntryPoint t bad).error ≠ some "") ∧
      (∀ ep ∈ l1 ++ l2,
        (discoverGroup t (l1 ++ bad :: l2) init).lookup ep.name =
            some (processEntryPoint t ep) ∧
          (processEntryPoint t ep).error = none ∧
          (discoverGroup t (l1 ++ { bad with dist := .ok d } :: l2) init).lookup ep.name =
            (discoverGroup t (l1 ++ bad :: l2) init).lookup ep.name) ∧
      (∀ k : String, (∀ ep ∈ l1 ++ bad :: l2, ep.name ≠ k) →
        (discoverGroup t (l1 ++ bad :: l2) init).lookup k = init.lookup k ∧
        (discoverGroup t (l1 ++ { bad with dist := .ok d } :: l2) init).lookup k =
          init.lookup k) := by
  intro t l1 l2 bad init m d hbad hm hok hnd
  have hnd' : ((l1 ++ { bad with dist := .ok d } :: l2).map PluginEntryPoint.name).Nodup := by
    have : (l1 ++ { bad with dist := .ok d } :: l2).map PluginEntryPoint.name =
        (l1 ++ bad :: l2).map PluginEntryPoint.name := by
      simp
    rwa [this]
  have hmem_bad : bad ∈ l1 ++ bad :: l2 :=
    List.mem_append.mpr (Or.inr (List.mem_cons_self bad l2))
  refine ⟨⟨lookup_discoverGroup_mem t _ init bad hmem_bad hnd, ?_, ?_⟩, ?_, ?_⟩
  · simp [processEntryPoint, hbad]
  · simp [processEntryPoint, hbad, hm]
  · intro ep hep
    have hmem : ep ∈ l1 ++ bad :: l2 := by
      rcases List.mem_append.mp hep with h1 | h2
      · exact List.mem_append.mpr (Or.inl h1)
      · exact List.mem_append.mpr (Or.inr (List.mem_cons_of_mem bad h2))
    have hmem' : ep ∈ l1 ++ { bad with dist := .ok d } :: l2 := by
      rcases List.mem_append.mp hep with h1 | h2
      · exact List.mem_append.mpr (Or.inl h1)
      · exact List.mem_append.mpr (Or.inr (List.mem_cons_of_mem _ h2))
    obtain ⟨dd, hdd⟩ := hok ep hep
    refine ⟨lookup_discoverGroup_mem t _ init ep hmem hnd, ?_, ?_⟩
    · simp [processEntryPoint, hdd]
    · rw [lookup_discoverGroup_mem t _ init ep hmem hnd,
        lookup_discoverGroup_mem t _ init ep hmem' hnd']
  · intro k hk
    have hk' : ∀ ep ∈ l1 ++ { bad with dist := .ok d } :: l2, ep.name ≠ k := by
      intro ep hep
      rcases List.mem_append.mp hep with h1 | h2
      · exact hk ep (List.mem_append.mpr (Or.inl h1))
      · rcases List.mem_cons.mp h2 with rfl | h3
        · exact hk bad hmem_bad
        · exact hk ep (List.mem_append.mpr (Or.inr (List.mem_cons_of_mem bad h3)))
    exact ⟨lookup_discoverGroup_not_mem t _ init k hk,
      lookup_discoverGroup_not_mem t _ init k hk'⟩

/-- C5 witness: a concrete pass over three entry points where the middle one
fails. -/
theorem C5_discovery_isolation_witness :
    ((discoverGroup "provider" [epAlpha, epBravoFail, epCharlie] []).lookup
        "bravo").map PluginInfo.error = some (some "metadata read failed") ∧
      ((discoverGroup "provider" [epAlpha, epBravoFail, epCharlie] []).lookup
        "alpha").map PluginInfo.error = some none := by
  have h := C5_discovery_isolation "provider" [epAlpha] [epCharlie] epBravoFail []
    "metadata read failed" none (by decide) (by decide)
    (by intro ep hep
        rcases List.mem_append.mp hep with h1 | h2
        · rcases List.mem_singleton.mp h1 with rfl
          exact ⟨some { version := "1.0", summary := some "A provider" }, rfl⟩
        · rcases List.mem_singleton.mp h2 with rfl
          exact ⟨none, rfl⟩)
    (by decide)
  simp only [List.singleton_append] at h
  constructor
  · rw [show ("bravo" : String) = epBravoFail.name from rfl, h.1.1]
    simp [processEntryPoint, epBravoFail]
  · have ha := (h.2.1 epAlpha (List.mem_append.mpr (Or.inl (List.mem_singleton.mpr rfl))))
    rw [show ("alpha" : String) = epAlpha.name from rfl, ha.1]
    simp [ha.2.1]

/-- C6 counterexample: a discovery state in which plugin "p" holds a recorded
error; re-running the discovery pass (whose processing of "p" now succeeds)
rebuilds the descriptor and `_discovered_plugins.update` overwrites the old
one, clearing the error — contradicting the claim that re-discovery never
clears a recorded error. -/
theorem C6_counterexample :
    (([("p", infoFrozenP)] : List (String × PluginInfo)).lookup "p").map PluginInfo.error =
        some (some "Failed to load plugin: boom") ∧
      ((updateState [("p", infoFrozenP)]
          (discoverGroup "provider" [epPGood] [])).lookup "p").map PluginInfo.error =
        some none :=
  ⟨by decide, by decide⟩

/-- C6 (amended): re-running `discover_plugins` rebuilds each discovered
plugin's descriptor from the current pass, and `_discovered_plugins.update`
overwrites the prior one — a previously recorded error is cleared whenever
the plugin's entry-point processing succeeds in the new pass (it survives
only if processing fails again); `load_plugin`, by contrast, never retries a
plugin whose current descriptor records an error: it returns no class and
leaves the loaded-cache and the discovery state unchanged, whatever
an import attempt would have produced. -/
theorem C6_rediscovery_overwrites_no_retry :
    (∀ (state init : List (String × PluginInfo)) (t : String)
      (eps : List PluginEntryPoint) (ep : PluginEntryPoint) (d : Option PluginDist),
      ep ∈ eps → (eps.map PluginEntryPoint.name).Nodup → ep.dist = .ok d →
      (∀ ep' ∈ eps, ∀ kv ∈ init, kv.1 ≠ ep'.name) →
      (updateState state (discoverGroup t eps init)).lookup ep.name =
          some (processEntryPoint t ep) ∧
        (processEntryPoint t ep).error = none) ∧
    (∀ (loaded : List (String × String)) (discovered : List (String × PluginInfo))
      (pluginName : String) (info : PluginInfo) (e : String) (imp : Except String String),
      loaded.lookup pluginName = none → discovered.lookup pluginName = some info →
      info.error = some e →
      loadPlugin loaded discovered pluginName imp = (none, loaded, discovered)) := by
  constructor
  · intro state init t eps ep d hmem hnd hok hdisj
    refine ⟨?_, by simp [processEntryPoint, hok]⟩
    rw [discoverGroup_eq_append t eps init hnd hdisj]
    obtain ⟨s, u, rfl⟩ := List.append_of_mem hmem
    rw [List.map_append, List.map_cons] at hnd ⊢
    have hnotin : ep.name ∉ u.map PluginEntryPoint.name :=
      (List.nodup_cons.mp (List.Nodup.of_append_right hnd)).1
    have hassoc : init ++ (List.map (fun x => (x.name, processEntryPoint t x)) s ++
        (ep.name, processEntryPoint t ep) ::
          List.map (fun x => (x.name, processEntryPoint t x)) u) =
        (init ++ List.map (fun x => (x.name, processEntryPoint t x)) s) ++
          (ep.name, processEntryPoint t ep) ::
            List.map (fun x => (x.name, processEntryPoint t x)) u := by
      rw [List.append_assoc]
    rw [hassoc]
    refine lookup_updateState_mem state _ _ ep.name (processEntryPoint t ep) ?_
    intro kv hkv
    obtain ⟨x, hx, rfl⟩ := List.mem_map.mp hkv
    intro hcon
    refine hnotin ?_
    rw [show ep.name = x.name from hcon.symm]
    exact List.mem_map_of_mem PluginEntryPoint.name hx
  · intro loaded discovered pluginName info e imp hL hD hE
    simp only [loadPlugin, hL, hD, hE]

/-- C6 witness: the amended behaviour at the concrete frozen-error state. -/
theorem C6_rediscovery_witness :
    (updateState [("p", infoFrozenP)] (discoverGroup "provider" [epPGood] [])).lookup "p" =
        some (processEntryPoint "provider" epPGood) ∧
      loadPlugin [] [("p", infoFrozenP)] "p" (.ok "pmod.PClass") =
        (none, [], [("p", infoFrozenP)]) := by
  constructor
  · have h := (C6_rediscovery_overwrites_no_retry.1 [("p", infoFrozenP)] [] "provider"
      [epPGood] epPGood (some { version := "1.0", summary := some "P provider" })
      (by decide) (by decide) (by decide)
      (fun ep' _ kv hkv => absurd hkv (List.not_mem_nil kv))).1
    exact h
  · exact C6_rediscovery_overwrites_no_retry.2 [] [("p", infoFrozenP)] "p" infoFrozenP
      "Failed to load plugin: boom" (.ok "pmod.PClass") (by decide) (by decide) (by decide)

/-! Ordering and dedup lemmas for the CCXT post-processing pipeline. -/

theorem ccxtDedup_sublist : ∀ (lst : List CcxtRow) (seen : List ℕ),
    List.Sublist (ccxtDedup lst seen) lst := by
  intro lst
  induction lst with
  | nil => intro seen; exact List.Sublist.refl []
  | cons r rest ih =>
    intro seen
    rw [ccxtDedup]
    by_cases hmem : r.ts ∈ seen
    · rw [if_pos hmem]
      exact List.Sublist.cons r (ih seen)
    · rw [if_neg hmem]
      exact List.Sublist.cons₂ r (ih (r.ts :: seen))

theorem ccxtDedup_ts_not_mem_seen : ∀ (lst : List CcxtRow) (seen : List ℕ) (r : CcxtRow),
    r ∈ ccxtDedup lst seen → r.ts ∉ seen := by
  intro lst
  induction lst with
  | nil => intro seen r hr; exact absurd hr (List.not_mem_nil r)
  | cons q rest ih =>
    intro seen r hr
    rw [ccxtDedup] at hr
    by_cases hmem : q.ts ∈ seen
    · rw [if_pos hmem] at hr
      exact ih seen r hr
    · rw [if_neg hmem] at hr
      rcases List.mem_cons.mp hr with rfl | hr'
      · exact hmem
      · intro hcon
        exact ih (q.ts :: seen) r hr' (List.mem_cons_of_mem _ hcon)

theorem ccxtDedup_ts_nodup : ∀ (lst : List CcxtRow) (seen : List ℕ),
    ((ccxtDedup lst seen).map CcxtRow.ts).Nodup := by
  intro lst
  induction lst with
  | nil => intro seen; simp [ccxtDedup]
  | cons r rest ih =>
    intro seen
    rw [ccxtDedup]
    by_cases hmem : r.ts ∈ seen
    · rw [if_pos hmem]
      exact ih seen
    · rw [if_neg hmem]
      rw [List.map_cons, List.nodup_cons]
      refine ⟨?_, ih (r.ts :: seen)⟩
      intro hcon
      obtain ⟨x, hx, hxe⟩ := List.mem_map.mp hcon
      exact ccxtDedup_ts_not_mem_seen rest (r.ts :: seen) x hx
        (hxe ▸ List.mem_cons_self r.ts seen)

theorem ccxtProcess_ts_sorted_lt (lst : List CcxtRow) :
    ((ccxtProcess lst).map CcxtRow.ts).Sorted (· < ·) := by
  have hsorted : (ccxtSort lst).Sorted ccxtRowLe :=
    List.sorted_insertionSort ccxtRowLe lst
  have hle : ((ccxtSort lst).map CcxtRow.ts).Pairwise (· ≤ ·) :=
    List.pairwise_map.mpr hsorted
  have hsub : List.Sublist ((ccxtProcess lst).map CcxtRow.ts)
      ((ccxtSort lst).map CcxtRow.ts) :=
    List.Sublist.map CcxtRow.ts (ccxtDedup_sublist (ccxtSort lst) [])
  have hle' : ((ccxtProcess lst).map CcxtRow.ts).Pairwise (· ≤ ·) := hle.sublist hsub
  exact List.Sorted.lt_of_le hle' (ccxtDedup_ts_nodup (ccxtSort lst) [])

theorem ccxtProcess_mem (lst : List CcxtRow) (r : CcxtRow) (hr : r ∈ ccxtProcess lst) :
    r ∈ lst := by
  have h1 : r ∈ ccxtSort lst := (ccxtDedup_sublist (ccxtSort lst) []).subset hr
  exact (List.mem_insertionSort ccxtRowLe).mp h1

/-- C1 counterexample: a CapitalComProvider.download_ohlcv run (MINUTE
timeframe, window [0, 1209600), two chunks) whose two pages share the
boundary timestamp 604800 hands save_ohlcv_data the timestamp sequence
[0, 604800, 604800, 1209600]: not strictly increasing, and the boundary
timestamp is appended twice. -/
theorem C1_counterexample :
    (capitalDownload capOverlapFetch "MINUTE".data 0 1209600 2 []).1.map OHLCV.timestamp =
        [0, 604800, 604800, 1209600] ∧
      ¬ List.Pairwise (· < ·)
        ((capitalDownload capOverlapFetch "MINUTE".data 0 1209600 2 []).1.map
          OHLCV.timestamp) ∧
      ¬ ((capitalDownload capOverlapFetch "MINUTE".data 0 1209600 2 []).1.map
          OHLCV.timestamp).Nodup :=
  ⟨by decide, by decide, by decide⟩

/-- C1 (amended): CCXTProvider.download_ohlcv sorts the collected rows by
raw (millisecond) timestamp and drops duplicates before saving, so whatever
rows the paginated fetch calls return, the sequence handed to
save_ohlcv_data is strictly increasing and duplicate-free in the raw
timestamp, and — whenever the returned raw timestamps are whole-second
aligned (multiples of 1000, as exchange bar-open times are) — strictly
increasing and duplicate-free in the saved per-second timestamps as well.
CapitalComProvider.download_ohlcv, by contrast, saves page rows as they
arrive without sorting or dedup, so overlapping chunk boundaries produce
duplicate timestamps (see the counterexample). -/
theorem C1_ordering_amended :
    ∀ lst : List CcxtRow,
      ((ccxtProcess lst).map CcxtRow.ts).Pairwise (· < ·) ∧
      ((ccxtProcess lst).map CcxtRow.ts).Nodup ∧
      ((∀ r ∈ lst, 1000 ∣ r.ts) →
        ((ccxtSavedBars lst).map OHLCV.timestamp).Pairwise (· < ·) ∧
        ((ccxtSavedBars lst).map OHLCV.timestamp).Nodup) := by
  intro lst
  refine ⟨ccxtProcess_ts_sorted_lt lst, ccxtDedup_ts_nodup (ccxtSort lst) [], fun hdvd => ?_⟩
  have hlt : (ccxtProcess lst).Pairwise (fun a b => a.ts < b.ts) :=
    List.pairwise_map.mp (ccxtProcess_ts_sorted_lt lst)
  have hsec : (ccxtProcess lst).Pairwise
      (fun a b => (ccxtRowToOHLCV a).timestamp < (ccxtRowToOHLCV b).timestamp) := by
    refine List.Pairwise.imp_of_mem ?_ hlt
    intro a b ha hb hab
    have hdb : 1000 ∣ b.ts := hdvd b (ccxtProcess_mem lst b hb)
    have hq : a.ts / 1000 < b.ts / 1000 := Nat.div_lt_div_of_lt_of_dvd hdb hab
    show ((a.ts / 1000 : ℕ) : ℤ) < ((b.ts / 1000 : ℕ) : ℤ)
    exact_mod_cast hq
  have hpw : ((ccxtSavedBars lst).map OHLCV.timestamp).Pairwise (· < ·) := by
    unfold ccxtSavedBars
    rw [List.map_map]
    exact List.pairwise_map.mpr hsec
  refine ⟨hpw, ?_⟩
  exact List.Pairwise.imp (fun hab => ne_of_lt hab) hpw

/-- C1 witness: the amended ordering at a concrete out-of-order, duplicated
page content. -/
theorem C1_ordering_witness :
    ((ccxtSavedBars [⟨2000, 1, 1, 1, 1, 0⟩, ⟨1000, 1, 1, 1, 1, 0⟩,
        ⟨2000, 2, 2, 2, 2, 0⟩]).map OHLCV.timestamp).Pairwise (· < ·) ∧
      ((ccxtSavedBars [⟨2000, 1, 1, 1, 1, 0⟩, ⟨1000, 1, 1, 1, 1, 0⟩,
        ⟨2000, 2, 2, 2, 2, 0⟩]).map OHLCV.timestamp).Nodup :=
  (C1_ordering_amended [⟨2000, 1, 1, 1, 1, 0⟩, ⟨1000, 1, 1, 1, 1, 0⟩,
    ⟨2000, 2, 2, 2, 2, 0⟩]).2.2 (by decide)

/-! Error-shape and storage-extension lemmas for the download loops. -/

theorem ccxtFetchLoop_err_shape (fetch : ℤ → Except String (List CcxtRow))
    (origFrom tt delta : ℤ) :
    ∀ (fuel : ℕ) (tf : ℤ) (allData : List CcxtRow) (progress : List ℤ) (e : PyErr),
      (ccxtFetchLoop fetch origFrom tt delta fuel tf allData progress).2.2 = some e →
      ∃ m, e = PyErr.fetchErr m := by
  intro fuel
  induction fuel with
  | zero =>
    intro tf allData progress e h
    exact absurd h (by simp [ccxtFetchLoop])
  | succ fuel ih =>
    intro tf allData progress e h
    unfold ccxtFetchLoop at h
    by_cases hlt : tf < tt
    · rw [if_pos hlt] at h
      cases hf : fetch tf with
      | error m =>
        rw [hf] at h
        have he : some (PyErr.fetchErr m) = some e := h
        exact ⟨m, (Option.some.inj he).symm⟩
      | ok res =>
        rw [hf] at h
        cases res with
        | nil => exact ih _ _ _ e h
        | cons r rs => exact ih _ _ _ e h
    · rw [if_neg hlt] at h
      exact absurd h (by simp)

theorem capitalFetchLoop_err_shape (fetch : ℤ → ℤ → Except String (List CapRow))
    (chunk tt : ℤ) :
    ∀ (fuel : ℕ) (cur : ℤ) (storage : List OHLCV) (progress : List ℤ) (e : PyErr),
      (capitalFetchLoop fetch chunk tt fuel cur storage progress).2.2 = some e →
      ∃ m, e = PyErr.capitalComError ("Error downloading OHLCV data: " ++ m) := by
  intro fuel
  induction fuel with
  | zero =>
    intro cur storage progress e h
    exact absurd h (by simp [capitalFetchLoop])
  | succ fuel ih =>
    intro cur storage progress e h
    unfold capitalFetchLoop at h
    by_cases hlt : cur < tt
    · rw [if_pos hlt] at h
      cases hf : fetch cur (min (cur + chunk) tt) with
      | error m =>
        rw [hf] at h
        have he : some (PyErr.capitalComError ("Error downloading OHLCV data: " ++ m)) =
            some e := h
        exact ⟨m, (Option.some.inj he).symm⟩
      | ok res =>
        rw [hf] at h
        cases res with
        | nil => exact ih _ _ _ e h
        | cons p ps => exact ih _ _ _ e h
    · rw [if_neg hlt] at h
      exact absurd h (by simp)

theorem capitalFetchLoop_extends (fetch : ℤ → ℤ → Except String (List CapRow))
    (chunk tt : ℤ) :
    ∀ (fuel : ℕ) (cur : ℤ) (storage : List OHLCV) (progress : List ℤ),
      ∃ appended,
        (capitalFetchLoop fetch chunk tt fuel cur storage progress).1 =
          storage ++ appended := by
  intro fuel
  induction fuel with
  | zero =>
    intro cur storage progress
    exact ⟨[], by simp [capitalFetchLoop]⟩
  | succ fuel ih =>
    intro cur storage progress
    unfold capitalFetchLoop
    by_cases hlt : cur < tt
    · rw [if_pos hlt]
      cases hf : fetch cur (min (cur + chunk) tt) with
      | error m => exact ⟨[], by simp⟩
      | ok res =>
        cases res with
        | nil => exact ih _ storage _
        | cons p ps =>
          obtain ⟨app, happ⟩ := ih (min (cur + chunk) tt)
            (storage ++ (p :: ps).map capRowToOHLCV) (progress ++ [cur])
          rw [List.append_assoc] at happ
          exact ⟨(p :: ps).map capRowToOHLCV ++ app, happ⟩
    · rw [if_neg hlt]
      exact ⟨[], by simp⟩

/-- C4 counterexample: a CCXTProvider.download_ohlcv run in which the fetch
call raises "boom": the error propagating out of download_ohlcv is the
underlying exception itself, not a wrapping error (and nothing is appended:
the prior storage contents are untouched because CCXT saves only after a
successful loop). -/
theorem C4_counterexample :
    (ccxtDownload ccxtBoomFetch (some "1d".data) 0 100 5
        [⟨-86400, 1, 1, 1, 1, 0⟩]).2.2 = some (PyErr.fetchErr "boom") ∧
      PyErr.isWrapped (PyErr.fetchErr "boom") = false ∧
      (ccxtDownload ccxtBoomFetch (some "1d".data) 0 100 5
        [⟨-86400, 1, 1, 1, 1, 0⟩]).1 = [⟨-86400, 1, 1, 1, 1, 0⟩] :=
  ⟨by decide, by decide, by decide⟩

/-- C4 (amended): a single fetch failure aborts the whole download in both
providers, and bars already in storage before the failure remain stored; but
only CapitalComProvider.download_ohlcv raises a wrapping error
(CapitalComError carrying the underlying message); CCXTProvider's
download_ohlcv propagates the underlying fetch exception unchanged, and
because it defers all saving until after the loop, a failed CCXT run appends
nothing at all (its storage is exactly as before), while a failed
Capital.com run keeps the bars of every chunk fetched before the failure
(storage only ever grows by appending). -/
theorem C4_failure_semantics_amended :
    (∀ (fetch : ℤ → Except String (List CcxtRow)) (xtf : Option (List Char))
      (t0 t1 : ℤ) (fuel : ℕ) (storage : List OHLCV) (e : PyErr),
      (ccxtDownload fetch xtf t0 t1 fuel storage).2.2 = some e →
      (∃ m, e = PyErr.fetchErr m) ∧
        (ccxtDownload fetch xtf t0 t1 fuel storage).1 = storage) ∧
    (∀ (fetchK : ℤ → ℤ → Except String (List CapRow)) (ktf : List Char)
      (t0 t1 : ℤ) (fuel : ℕ) (storage : List OHLCV),
      (∀ e, (capitalDownload fetchK ktf t0 t1 fuel storage).2.2 = some e →
        ∃ m, e = PyErr.capitalComError ("Error downloading OHLCV data: " ++ m)) ∧
      (∃ appended, (capitalDownload fetchK ktf t0 t1 fuel storage).1 =
        storage ++ appended)) := by
  constructor
  · intro fetch xtf t0 t1 fuel storage e h
    have hshape := ccxtFetchLoop_err_shape fetch t0 t1 (ccxtDelta xtf) fuel t0 [] []
    unfold ccxtDownload at h ⊢
    cases herr : (ccxtFetchLoop fetch t0 t1 (ccxtDelta xtf) fuel t0 [] []).2.2 with
    | none =>
      rw [herr] at h
      simp [ccxtDownloadFinish] at h
    | some e' =>
      rw [herr] at h
      simp [ccxtDownloadFinish] at h
      subst h
      exact ⟨hshape e' herr, rfl⟩
  · intro fetchK ktf t0 t1 fuel storage
    constructor
    · intro e h
      have hshape := capitalFetchLoop_err_shape fetchK (capitalChunkSize ktf) t1 fuel t0
        storage []
      unfold capitalDownload at h
      cases herr : (capitalFetchLoop fetchK (capitalChunkSize ktf) t1 fuel t0
          storage []).2.2 with
      | none =>
        rw [herr] at h
        simp [capitalDownloadFinish] at h
      | some e' =>
        rw [herr] at h
        simp [capitalDownloadFinish] at h
        subst h
        exact hshape e' herr
    · obtain ⟨app, happ⟩ := capitalFetchLoop_extends fetchK (capitalChunkSize ktf) t1
        fuel t0 storage []
      unfold capitalDownload
      cases herr : (capitalFetchLoop fetchK (capitalChunkSize ktf) t1 fuel t0
          storage []).2.2 with
      | none => exact ⟨app, happ⟩
      | some e' => exact ⟨app, happ⟩

/-- C4 witness: the amended failure semantics at concrete failing runs of
both providers. -/
theorem C4_failure_semantics_witness :
    (ccxtDownload ccxtBoomFetch (some "1d".data) 0 100 5 []).1 = [] ∧
      (∃ m, PyErr.capitalComError "Error downloading OHLCV data: boom" =
        PyErr.capitalComError ("Error downloading OHLCV data: " ++ m)) ∧
      (∃ appended, (capitalDownload capBoomFetch "MINUTE".data 0 100 5
        [⟨-1, 1, 1, 1, 1, 0⟩]).1 = [⟨-1, 1, 1, 1, 1, 0⟩] ++ appended) := by
  refine ⟨(C4_failure_semantics_amended.1 ccxtBoomFetch (some "1d".data) 0 100 5 []
    (PyErr.fetchErr "boom") (by decide)).2, ?_, ?_⟩
  · exact (C4_failure_semantics_amended.2 capBoomFetch "MINUTE".data 0 100 5
      [⟨-1, 1, 1, 1, 1, 0⟩]).1 (PyErr.capitalComError "Error downloading OHLCV data: boom")
      (by decide)
  · exact (C4_failure_semantics_amended.2 capBoomFetch "MINUTE".data 0 100 5
      [⟨-1, 1, 1, 1, 1, 0⟩]).2

/-- C9: for every window with time_from at or after time_to, both
download_ohlcv implementations append zero bars (storage unchanged), raise
no error, and invoke the progress callback exactly once, with time_to as its
argument. -/
theorem C9_empty_window :
    ∀ (fetch : ℤ → Except String (List CcxtRow))
      (fetchK : ℤ → ℤ → Except String (List CapRow)) (xtf : Option (List Char))
      (ktf : List Char) (t0 t1 : ℤ) (fuel : ℕ) (storage storageK : List OHLCV),
      t1 ≤ t0 →
      ccxtDownload fetch xtf t0 t1 fuel storage = (storage, [t1], none) ∧
      capitalDownload fetchK ktf t0 t1 fuel storageK = (storageK, [t1], none) := by
  intro fetch fetchK xtf ktf t0 t1 fuel storage storageK h
  constructor
  · have hloop : ccxtFetchLoop fetch t0 t1 (ccxtDelta xtf) fuel t0 [] [] =
        ([], [], none) := by
      cases fuel with
      | zero => rfl
      | succ fuel' =>
        unfold ccxtFetchLoop
        rw [if_neg (not_lt.mpr h)]
    unfold ccxtDownload
    rw [hloop]
    show (storage ++ ccxtSavedBars [], [] ++ [t1], none) = (storage, [t1], none)
    simp [ccxtSavedBars, ccxtProcess, ccxtSort, ccxtDedup, List.insertionSort]
  · have hloop : capitalFetchLoop fetchK (capitalChunkSize ktf) t1 fuel t0 storageK [] =
        (storageK, [], none) := by
      cases fuel with
      | zero => rfl
      | succ fuel' =>
        unfold capitalFetchLoop
        rw [if_neg (not_lt.mpr h)]
    unfold capitalDownload
    rw [hloop]
    rfl

/-- C9 witness: empty windows at concrete instants. -/
theorem C9_empty_window_witness :
    ccxtDownload ccxtBoomFetch (some "1d".data) 5 5 3 [] = ([], [5], none) ∧
      capitalDownload capBoomFetch "MINUTE".data 7 5 3 [] = ([], [5], none) := by
  refine ⟨(C9_empty_window ccxtBoomFetch capBoomFetch (some "1d".data) "MINUTE".data 5 5 3
    [] [] (le_refl 5)).1, ?_⟩
  exact (C9_empty_window ccxtBoomFetch capBoomFetch (some "1d".data) "MINUTE".data 7 5 3
    [] [] (by norm_num)).2

/-- C2: the claim requires the resume check to override the caller's
time_from with exactly the last stored timestamp; the code divides the
seconds-based stored timestamp by 1000 (a "convert from milliseconds" slip:
the bars were stored with second-based timestamps by the providers'
download_ohlcv), so for a file whose last stored bar is at 1700000000
(2023-11-14T22:13:20Z) the resume start becomes 1700000 (1970-01-20), not
1700000000. -/
theorem C2_resume_division_bug :
    storageLastTimestamp [⟨1700000000, 1, 1, 1, 1, 0⟩] = some 1700000000 ∧
      resumeFromDate 1690000000 (storageLastTimestamp [⟨1700000000, 1, 1, 1, 1, 0⟩]) =
        1700000 ∧
      (1700000 : ℚ) ≠ 1700000000 := by
  refine ⟨rfl, ?_, by norm_num⟩
  show resumeFromDate 1690000000 (some 1700000000) = 1700000
  unfold resumeFromDate
  norm_num
